import Mathlib

/-!
Shallow embedding of the Blink-Detector core (serial link, calibrated
dual-channel change detector, segmented recorder with retention window,
and the integrated correlation loop), translated from
`src/serialport.js`, `src/integrated-test.js` and the unnamed sources.

Numeric sensor magnitudes are modelled as rationals; timestamps
(`Date.now()`) as integers (milliseconds).  File paths inside the single
output directory are modelled by their file names: every path handled by
the recorder has the form `path.join(outputDir, name)`, so equality of
full paths corresponds to equality of names and `path.basename` becomes
the identity on this representation.
-/

namespace Blink

/-! ### Serial link: line handling (DeviceSerialPort) -/

/-- JavaScript `\s` on the ASCII range (space, tab, newline, carriage
return, vertical tab, form feed), as used by `trim()` and by the
sensor-response regular expression. -/
def isJsSpace (c : Char) : Bool :=
  c = ' ' || c = '\t' || c = '\n' || c = '\r' || c = '\x0b' || c = '\x0c'

/-- JavaScript `String.prototype.trim`: strip whitespace from both ends. -/
def jsTrim (s : String) : String :=
  ⟨((s.data.dropWhile isJsSpace).reverse.dropWhile isJsSpace).reverse⟩

/-- Consume `\d+\.\d+` from the front of a character list, returning the
remaining characters, or `none` when the front does not have that shape. -/
def matchNumber (cs : List Char) : Option (List Char) :=
  let d1 := cs.takeWhile Char.isDigit
  let r1 := cs.dropWhile Char.isDigit
  if d1.isEmpty then none
  else
    match r1 with
    | '.' :: r2 =>
      let d2 := r2.takeWhile Char.isDigit
      let r3 := r2.dropWhile Char.isDigit
      if d2.isEmpty then none else some r3
    | _ => none

/-- The strict sensor-response pattern `/^(\d+\.\d+),\s*(\d+\.\d+)$/`
used by both `processResponse` and `ReadSensor`. -/
def sensorLineMatches (s : String) : Bool :=
  match matchNumber s.data with
  | none => false
  | some r1 =>
    match r1 with
    | ',' :: r2 =>
      match matchNumber (r2.dropWhile isJsSpace) with
      | some [] => true
      | _ => false
    | _ => false

/-- Mutable state of `DeviceSerialPort` relevant to line handling. -/
structure LinkState where
  isBusy : Bool
  buffer : String
deriving Repr, DecidableEq

/-- Events emitted by `processResponse` (`'data'` carries a parsed sensor
reading, `'response'` the raw line). -/
inductive LinkEmit
  | data (line : String)
  | response (line : String)
deriving Repr, DecidableEq

/-- Whether an emission is a `'data'` (sensor reading) event. -/
def LinkEmit.isData : LinkEmit → Bool
  | .data _ => true
  | .response _ => false

/-- `DeviceSerialPort.processResponse`: an empty response returns at once
(leaving `isBusy` untouched); otherwise `isBusy` is cleared and the line
is emitted, as a `'data'` plus `'response'` pair when it matches the
sensor pattern, as a bare `'response'` otherwise. -/
def processResponse (st : LinkState) (response : String) : LinkState × List LinkEmit :=
  if response = "" then (st, [])
  else
    let st' := { st with isBusy := false }
    if sensorLineMatches response then
      (st', [.data response, .response response])
    else
      (st', [.response response])

/-- One complete line from the `'data'` listener: the listener trims the
line before handing it to `processResponse`. -/
def handleLine (st : LinkState) (message : String) : LinkState × List LinkEmit :=
  processResponse st (jsTrim message)

/-- `setupDataListener`'s chunk handler: append the chunk to the buffer,
split on `'\n'`, keep the trailing partial line as the new buffer and
process each complete line in order. -/
def onData (st : LinkState) (chunk : String) : LinkState × List LinkEmit :=
  let messages := (st.buffer ++ chunk).splitOn "\n"
  let complete := messages.dropLast
  let start : LinkState × List LinkEmit := ({ st with buffer := messages.getLastD "" }, [])
  complete.foldl
    (fun acc m =>
      let r := handleLine acc.1 m
      (r.1, acc.2 ++ r.2))
    start

/-! ### Serial link: ReadSensor outcome -/

/-- The 5000 ms ceiling of `ReadSensor`. -/
def readTimeoutMs : ℕ := 5000

/-- An event that can reach the outstanding `ReadSensor` promise. -/
inductive ReadEvent
  | response (line : String)
  | errorEv
deriving Repr, DecidableEq

/-- Outcome of one `ReadSensor` call. -/
inductive ReadOutcome
  | ok (line : String)
  | invalidFormat
  | readTimeout
  | errored
deriving Repr, DecidableEq

/-- `ReadSensor`'s waiting logic: the first `'response'`/`'error'` event,
tagged with its arrival time in ms after the command was written, decides
the call when it beats the 5000 ms timer; with no event (or an event not
before the timer) the call fails with the timeout error.  A `'response'`
line resolves with the reading when it matches the sensor pattern and
rejects with the invalid-format error otherwise. -/
def readSensorOutcome : Option (ℕ × ReadEvent) → ReadOutcome
  | none => .readTimeout
  | some (t, e) =>
    if t ≥ readTimeoutMs then .readTimeout
    else
      match e with
      | .response l => if sensorLineMatches l then .ok l else .invalidFormat
      | .errorEv => .errored

/-! ### Serial link: sendCommand busy wait and watchdog -/

/-- `MAX_BUSY_WAIT` of `sendCommand` (ms). -/
def MAX_BUSY_WAIT : ℕ := 1000

/-- The watchdog delay of `sendCommand` (ms). -/
def WATCHDOG_MS : ℕ := 100

/-- The busy-wait loop of `sendCommand`, driven by the value `busy k` the
flag shows at the k-th check (the flag may be cleared concurrently by a
response or the watchdog).  `k` counts the 10 ms sleeps already
performed; `fuel` is the number of sleeps still allowed before
`busyWaitTime` reaches `MAX_BUSY_WAIT`.  Returns the total number of
sleeps performed and whether the flag was forcibly cleared. -/
def busyWaitAux (busy : ℕ → Bool) : ℕ → ℕ → ℕ × Bool
  | k, 0 => if busy k then (k + 1, true) else (k, false)
  | k, f + 1 => if busy k then busyWaitAux busy (k + 1) f else (k, false)

/-- The whole busy wait: starting from `busyWaitTime = 0`, the 100th
sleep brings `busyWaitTime` to `MAX_BUSY_WAIT` and forces the clear. -/
def busyWait (busy : ℕ → Bool) : ℕ × Bool :=
  busyWaitAux busy 0 99

/-- The watchdog callback scheduled 100 ms after a successful write:
`if (this.isBusy) this.isBusy = false`. -/
def watchdogFire (isBusy : Bool) : Bool :=
  if isBusy then false else isBusy

/-! ### Serial link: port selection and initialization -/

/-- The module-level `savedPortPath` plus the instance field `portPath`
(`null` is `none`; the JavaScript `===` on these values coincides with
equality of `Option String`). -/
structure PortState where
  savedPortPath : Option String
  portPath : Option String
deriving Repr, DecidableEq

/-- External behaviour surrounding attempt `k` of `initialize`:
the ports the enumeration lists, the path the operator eventually
selects and confirms when prompted, and whether opening the port fails. -/
structure InitEnv where
  avail : ℕ → List String
  choice : ℕ → String
  openFails : ℕ → Bool

/-- Result of `selectPort`, together with the value `savedPortPath`
holds afterwards (a stale saved path is cleared before the empty
enumeration throws, and an interactive confirmation stores the choice). -/
inductive SelectResult
  | ok (path : String) (saved : Option String)
  | noPorts (saved : Option String)
deriving Repr, DecidableEq

/-- `DeviceSerialPort.selectPort`: reuse the saved path when the
enumeration still lists it; otherwise clear it, fail when the
enumeration is empty, and otherwise return (and save) the confirmed
interactive choice. -/
def selectPort (saved : Option String) (avail : List String) (choice : String) :
    SelectResult :=
  match saved with
  | some p =>
    if p ∈ avail then .ok p (some p)
    else if avail.isEmpty then .noPorts none
    else .ok choice (some choice)
  | none =>
    if avail.isEmpty then .noPorts none
    else .ok choice (some choice)

/-- Outcome of `initialize` under a fuel bound on the number of
attempts: `failure` is the error being rethrown to the caller,
`exhausted` means the retry recursion was still going when the fuel ran
out. -/
inductive InitOutcome
  | success (st : PortState)
  | failure (st : PortState)
  | exhausted (st : PortState)
deriving Repr, DecidableEq

/-- Whether an `initialize` outcome surfaced an error. -/
def InitOutcome.isFailure : InitOutcome → Bool
  | .failure _ => true
  | _ => false

/-- Whether an `initialize` outcome ran out of fuel while still retrying. -/
def InitOutcome.isExhausted : InitOutcome → Bool
  | .exhausted _ => true
  | _ => false

/-- `DeviceSerialPort.initialize`: select a port (recording it in
`portPath`), then open it; on any error, if `savedPortPath ===
this.portPath` the saved path is cleared and `initialize` recurses,
otherwise the error is rethrown.  When `selectPort` itself throws,
`this.portPath` keeps its previous value. -/
def initLink (env : InitEnv) : ℕ → ℕ → PortState → InitOutcome
  | _, 0, st => .exhausted st
  | k, fuel + 1, st =>
    match selectPort st.savedPortPath (env.avail k) (env.choice k) with
    | .noPorts saved' =>
      let st' : PortState := ⟨saved', st.portPath⟩
      if st'.savedPortPath = st'.portPath then
        initLink env (k + 1) fuel ⟨none, st'.portPath⟩
      else .failure st'
    | .ok p saved' =>
      let st' : PortState := ⟨saved', some p⟩
      if env.openFails k then
        if st'.savedPortPath = st'.portPath then
          initLink env (k + 1) fuel ⟨none, st'.portPath⟩
        else .failure st'
      else .success st'

/-! ### Change detector (CalibratedFlickerDetector) -/

/-- Per-instance state of `CalibratedFlickerDetector`; pairs hold the
two channels (index 0 / index 1 of the JavaScript arrays), magnitudes
are rationals and thresholds are assumed calibrated. -/
structure DetectorState where
  isOn : Bool × Bool
  wasOn : Bool × Bool
  lastValue : Option ℚ × Option ℚ
  threshold : ℚ × ℚ
  blinkCount : ℕ × ℕ
deriving Repr, DecidableEq

/-- The constructor's state, with calibrated thresholds substituted. -/
def initDetector (th : ℚ × ℚ) : DetectorState :=
  { isOn := (false, false), wasOn := (false, false),
    lastValue := (none, none), threshold := th, blinkCount := (0, 0) }

/-- `CalibratedFlickerDetector.detectStateChange`: per channel, a first
reading only stores the baseline (that channel's `changes` flag stays
`false`); later readings store the new magnitude, set `isOn` to
`|current - previous| ≥ threshold` and report the channel as evaluated. -/
def detectStateChange (st : DetectorState) (currentValue1 currentValue2 : ℚ) :
    DetectorState × (Bool × Bool) :=
  let s1 : Option ℚ × Bool × Bool :=
    match st.lastValue.1 with
    | none => (some currentValue1, st.isOn.1, false)
    | some prev =>
      (some currentValue1, decide (|currentValue1 - prev| ≥ st.threshold.1), true)
  let s2 : Option ℚ × Bool × Bool :=
    match st.lastValue.2 with
    | none => (some currentValue2, st.isOn.2, false)
    | some prev =>
      (some currentValue2, decide (|currentValue2 - prev| ≥ st.threshold.2), true)
  ({ st with lastValue := (s1.1, s2.1), isOn := (s1.2.1, s2.2.1) },
   (s1.2.2, s2.2.2))

/-- Feed a sequence of readings through `detectStateChange`, collecting
the `changes` flags reported for each reading. -/
def runDetect (st : DetectorState) : List (ℚ × ℚ) → DetectorState × List (Bool × Bool)
  | [] => (st, [])
  | r :: rs =>
    let step := detectStateChange st r.1 r.2
    let rest := runDetect step.1 rs
    (rest.1, step.2 :: rest.2)

/-- `CalibratedFlickerDetector.logBlink`: increment the given channel's
blink counter. -/
def logBlink (st : DetectorState) (sensorIndex : Fin 2) : DetectorState :=
  if sensorIndex = 0 then
    { st with blinkCount := (st.blinkCount.1 + 1, st.blinkCount.2) }
  else
    { st with blinkCount := (st.blinkCount.1, st.blinkCount.2 + 1) }

/-! ### Segmented recorder (BlinkCameraController) -/

/-- A queued segment: its file name and its enqueue time (`Date.now()`
when the next segment opened). -/
structure Segment where
  path : String
  timestamp : ℤ
deriving Repr, DecidableEq

/-- `BlinkCameraController` state: the must-keep set
(`segmentsWithBlinks`), the open segment, the retention FIFO
(`videoQueue`), and the names of the files currently present in the
output directory. -/
structure RecorderState where
  segmentsWithBlinks : List String
  currentSegment : Option String
  videoQueue : List Segment
  files : List String
  segmentDuration : ℤ
  retentionWindow : ℤ
deriving Repr, DecidableEq

/-- The constructor's state (`segmentDuration = 30`,
`retentionWindow = 2`), over whatever files the directory holds. -/
def initRecorder (files : List String) : RecorderState :=
  { segmentsWithBlinks := [], currentSegment := none, videoQueue := [],
    files := files, segmentDuration := 30, retentionWindow := 2 }

/-- `Set.prototype.add` on the list model of `segmentsWithBlinks`. -/
def setAdd (s : List String) (x : String) : List String :=
  if x ∈ s then s else s ++ [x]

/-- `BlinkCameraController.handleBlinkDetected`: mark the currently open
segment as must-keep; dropped when no segment is open. -/
def handleBlinkDetected (st : RecorderState) : RecorderState :=
  match st.currentSegment with
  | some seg => { st with segmentsWithBlinks := setAdd st.segmentsWithBlinks seg }
  | none => st

/-- The `while` loop of `performCleanup`: while the front of the queue
is older than the retention period, dequeue it and delete its file
unless it is marked must-keep.  Returns the remaining queue and files. -/
def performCleanupAux (now retentionPeriod : ℤ) (mustKeep : List String) :
    List Segment → List String → List Segment × List String
  | [], files => ([], files)
  | seg :: rest, files =>
    if now - seg.timestamp > retentionPeriod then
      let files' :=
        if seg.path ∈ mustKeep then files
        else files.filter (fun f => f ≠ seg.path)
      performCleanupAux now retentionPeriod mustKeep rest files'
    else (seg :: rest, files)

/-- `BlinkCameraController.performCleanup` at time `now`, with
`retentionPeriod = segmentDuration * 1000 * retentionWindow`. -/
def performCleanup (now : ℤ) (st : RecorderState) : RecorderState :=
  let r := performCleanupAux now (st.segmentDuration * 1000 * st.retentionWindow)
    st.segmentsWithBlinks st.videoQueue st.files
  { st with videoQueue := r.1, files := r.2 }

/-- `file.endsWith(t)`, as a kernel-computable suffix test. -/
def strEndsWith (s t : String) : Bool :=
  t.data.isSuffixOf s.data

/-- `BlinkCameraController.processVideos` (the final sweep over the
directory listing): every `.mp4` file whose name matches a must-keep
segment is renamed with the `blink_` prefix, every other `.mp4` file is
deleted, and files that are not `.mp4` are left untouched. -/
def processVideos (mustKeep : List String) (files : List String) : List String :=
  files.filterMap (fun f =>
    if ¬ strEndsWith f ".mp4" then some f
    else if mustKeep.any (fun s => s = f) then some ("blink_" ++ f)
    else none)

/-- The drain loop at the end of `stopRecording`
(`while (videoQueue.length > 0) performCleanup()`): each iteration reads
a fresh `Date.now()`, modelled by the time sequence `t`; `k` is the
iteration index and `fuel` bounds the iterations performed. -/
def drainAux (t : ℕ → ℤ) : ℕ → ℕ → RecorderState → RecorderState
  | _, 0, st => st
  | k, fuel + 1, st =>
    if st.videoQueue = [] then st
    else drainAux t (k + 1) fuel (performCleanup (t k) st)

/-- `BlinkCameraController.stopRecording` with recording active: stop
the encoder (not modelled further), run the final sweep
(`processVideos`) over the directory, then drain the retention queue
through `performCleanup` until it is empty. -/
def stopRecording (t : ℕ → ℤ) (fuel : ℕ) (st : RecorderState) : RecorderState :=
  drainAux t 0 fuel
    { st with files := processVideos st.segmentsWithBlinks st.files }

/-! ### Integrated correlation loop (IntegratedBlinkTest.startTest) -/

/-- State the polling loop touches: the detector, the test's aggregate
blink counter, the CSV event log (`(sensorIndex + 1, magnitude)` rows in
append order) and the camera controller. -/
structure TestState where
  det : DetectorState
  blinkCount : ℕ
  blinkLog : List (ℕ × ℚ)
  camera : RecorderState
deriving Repr, DecidableEq

/-- One iteration of the polling loop after a successful read
`(v1, v2)`: run `detectStateChange`, then for each channel that was
evaluated, on a false→true transition bump the counter, append the CSV
row and mark the current segment; finally set that channel's `wasOn` to
its `isOn`. -/
def cycleBody (ts : TestState) (v1 v2 : ℚ) : TestState :=
  let step := detectStateChange ts.det v1 v2
  let det1 := step.1
  let ch := step.2
  -- i = 0 (Sensor 1)
  let fire1 := ch.1 && det1.isOn.1 && !det1.wasOn.1
  let det2 := if ch.1 then { det1 with wasOn := (det1.isOn.1, det1.wasOn.2) } else det1
  let count1 := ts.blinkCount + (if fire1 then 1 else 0)
  let log1 := ts.blinkLog ++ (if fire1 then [(1, v1)] else [])
  let cam1 := if fire1 then handleBlinkDetected ts.camera else ts.camera
  -- i = 1 (Sensor 2)
  let fire2 := ch.2 && det2.isOn.2 && !det2.wasOn.2
  let det3 := if ch.2 then { det2 with wasOn := (det2.wasOn.1, det2.isOn.2) } else det2
  { det := det3,
    blinkCount := count1 + (if fire2 then 1 else 0),
    blinkLog := log1 ++ (if fire2 then [(2, v2)] else []),
    camera := if fire2 then handleBlinkDetected cam1 else cam1 }

/-- Channel `sensor`'s event counter realized by the per-channel CSV
records: the number of logged events carrying that sensor number. -/
def channelEvents (sensor : ℕ) (log : List (ℕ × ℚ)) : ℕ :=
  (log.filter (fun r => r.1 = sensor)).length

/-! ### Helper lemmas -/

theorem detectStateChange_wasOn (st : DetectorState) (v1 v2 : ℚ) :
    (detectStateChange st v1 v2).1.wasOn = st.wasOn := rfl

theorem detectStateChange_threshold (st : DetectorState) (v1 v2 : ℚ) :
    (detectStateChange st v1 v2).1.threshold = st.threshold := rfl

theorem detectStateChange_lastValue_isSome (st : DetectorState) (v1 v2 : ℚ) :
    (detectStateChange st v1 v2).1.lastValue.1.isSome ∧
    (detectStateChange st v1 v2).1.lastValue.2.isSome := by
  constructor <;>
  · simp only [detectStateChange]
    cases st.lastValue.1 <;> cases st.lastValue.2 <;> simp

/-- With both baselines stored, every reading is evaluated on both
channels and the baselines stay stored. -/
theorem runDetect_all_evaluated (rs : List (ℚ × ℚ)) :
    ∀ st : DetectorState, st.lastValue.1.isSome → st.lastValue.2.isSome →
    (runDetect st rs).2 = List.replicate rs.length (true, true) := by
  induction rs with
  | nil => intro st _ _; rfl
  | cons r rs ih =>
    intro st h1 h2
    obtain ⟨p1, hp1⟩ := Option.isSome_iff_exists.mp h1
    obtain ⟨p2, hp2⟩ := Option.isSome_iff_exists.mp h2
    have hstep : (detectStateChange st r.1 r.2).2 = (true, true) := by
      simp [detectStateChange, hp1, hp2]
    have hsome := detectStateChange_lastValue_isSome st r.1 r.2
    simp only [runDetect, List.length_cons, List.replicate_succ]
    rw [ih _ hsome.1 hsome.2, hstep]

/-! ### C1: first reading stores a baseline, later readings classify -/

/-- **C1.** For each channel of `detectStateChange`: a first reading (no
stored prior magnitude) only stores the baseline and reports the channel
as not evaluated, leaving the on/off state untouched; every later
reading reports the channel as evaluated, stores the current magnitude
as the new previous one, and sets on/off to `|current − previous| ≥
threshold`.  After any call both baselines are stored, so over any
sequence of readings from a fresh detector exactly the first reading is
unevaluated and all later ones are evaluated on both channels. -/
theorem detect_first_baseline_then_threshold (st : DetectorState) (v1 v2 : ℚ) :
    (st.lastValue.1 = none →
      (detectStateChange st v1 v2).2.1 = false ∧
      (detectStateChange st v1 v2).1.lastValue.1 = some v1 ∧
      (detectStateChange st v1 v2).1.isOn.1 = st.isOn.1) ∧
    (∀ p, st.lastValue.1 = some p →
      (detectStateChange st v1 v2).2.1 = true ∧
      (detectStateChange st v1 v2).1.lastValue.1 = some v1 ∧
      ((detectStateChange st v1 v2).1.isOn.1 = true ↔ |v1 - p| ≥ st.threshold.1)) ∧
    (st.lastValue.2 = none →
      (detectStateChange st v1 v2).2.2 = false ∧
      (detectStateChange st v1 v2).1.lastValue.2 = some v2 ∧
      (detectStateChange st v1 v2).1.isOn.2 = st.isOn.2) ∧
    (∀ p, st.lastValue.2 = some p →
      (detectStateChange st v1 v2).2.2 = true ∧
      (detectStateChange st v1 v2).1.lastValue.2 = some v2 ∧
      ((detectStateChange st v1 v2).1.isOn.2 = true ↔ |v2 - p| ≥ st.threshold.2)) ∧
    ((detectStateChange st v1 v2).1.lastValue.1.isSome ∧
     (detectStateChange st v1 v2).1.lastValue.2.isSome) ∧
    (∀ (th : ℚ × ℚ) (rs : List (ℚ × ℚ)),
      (runDetect (initDetector th) rs).2 =
        (List.replicate rs.length (true, true)).set 0 (false, false)) := by
  refine ⟨?_, ?_, ?_, ?_, detectStateChange_lastValue_isSome st v1 v2, ?_⟩
  · intro h
    simp [detectStateChange, h]
  · intro p h
    cases h2 : st.lastValue.2 <;> simp [detectStateChange, h, h2]
  · intro h
    simp [detectStateChange, h]
  · intro p h
    cases h1 : st.lastValue.1 <;> simp [detectStateChange, h, h1]
  · intro th rs
    cases rs with
    | nil => rfl
    | cons r rest =>
      have hstep : (detectStateChange (initDetector th) r.1 r.2).2 = (false, false) := by
        simp [detectStateChange, initDetector]
      have hsome := detectStateChange_lastValue_isSome (initDetector th) r.1 r.2
      simp only [runDetect, List.length_cons, List.replicate_succ, List.set_cons_zero]
      rw [runDetect_all_evaluated rest _ hsome.1 hsome.2, hstep]

/-- Witness for C1: a detector holding baseline 1 on channel 1 evaluates
the next reading. -/
def detW : DetectorState :=
  { isOn := (false, false), wasOn := (false, false),
    lastValue := (some 1, some 1), threshold := (3/4, 3/4), blinkCount := (0, 0) }

theorem detect_first_baseline_then_threshold_witness :
    detW.lastValue.1 = some 1 ∧ (detectStateChange detW 2 1).2.1 = true :=
  ⟨rfl, ((detect_first_baseline_then_threshold detW 2 1).2.1 1 rfl).1⟩

/-! ### C2: one event per false→true transition, per channel -/

theorem channelEvents_append (sensor : ℕ) (l1 l2 : List (ℕ × ℚ)) :
    channelEvents sensor (l1 ++ l2) =
      channelEvents sensor l1 + channelEvents sensor l2 := by
  simp [channelEvents, List.filter_append]

/-- The event log written by one polling cycle: one `(1, v1)` row when
channel 1 was evaluated and rose false→true, then one `(2, v2)` row when
channel 2 was evaluated and rose false→true. -/
theorem cycleBody_blinkLog (ts : TestState) (v1 v2 : ℚ) :
    (cycleBody ts v1 v2).blinkLog =
      ts.blinkLog
        ++ (if (detectStateChange ts.det v1 v2).2.1 &&
               (detectStateChange ts.det v1 v2).1.isOn.1 && !ts.det.wasOn.1
            then [((1 : ℕ), v1)] else [])
        ++ (if (detectStateChange ts.det v1 v2).2.2 &&
               (detectStateChange ts.det v1 v2).1.isOn.2 && !ts.det.wasOn.2
            then [((2 : ℕ), v2)] else []) := by
  have hwas : (detectStateChange ts.det v1 v2).1.wasOn = ts.det.wasOn :=
    detectStateChange_wasOn ts.det v1 v2
  by_cases hc1 : (detectStateChange ts.det v1 v2).2.1 <;>
    simp [cycleBody, hc1, hwas]

theorem cycleBody_blinkCount (ts : TestState) (v1 v2 : ℚ) :
    (cycleBody ts v1 v2).blinkCount =
      ts.blinkCount
        + (if (detectStateChange ts.det v1 v2).2.1 &&
              (detectStateChange ts.det v1 v2).1.isOn.1 && !ts.det.wasOn.1
           then 1 else 0)
        + (if (detectStateChange ts.det v1 v2).2.2 &&
              (detectStateChange ts.det v1 v2).1.isOn.2 && !ts.det.wasOn.2
           then 1 else 0) := by
  have hwas : (detectStateChange ts.det v1 v2).1.wasOn = ts.det.wasOn :=
    detectStateChange_wasOn ts.det v1 v2
  by_cases hc1 : (detectStateChange ts.det v1 v2).2.1 <;>
    simp [cycleBody, hc1, hwas]

/-- **C2.** On every polling cycle, for each channel that was evaluated,
the channel's event counter (its CSV event records) grows by exactly 1
when that channel's on/off state rose false→true (previous-cycle state
false, current state true) and by 0 on the other three state pairs; the
per-channel counters are monotonically non-decreasing across cycles, and
the detector's `logBlink` bumps exactly the addressed channel's counter
by one. -/
theorem event_counter_per_channel_transition (ts : TestState) (v1 v2 : ℚ) :
    ((detectStateChange ts.det v1 v2).2.1 = true →
      channelEvents 1 (cycleBody ts v1 v2).blinkLog =
        channelEvents 1 ts.blinkLog +
          (if (detectStateChange ts.det v1 v2).1.isOn.1 = true ∧ ts.det.wasOn.1 = false
           then 1 else 0)) ∧
    ((detectStateChange ts.det v1 v2).2.2 = true →
      channelEvents 2 (cycleBody ts v1 v2).blinkLog =
        channelEvents 2 ts.blinkLog +
          (if (detectStateChange ts.det v1 v2).1.isOn.2 = true ∧ ts.det.wasOn.2 = false
           then 1 else 0)) ∧
    channelEvents 1 ts.blinkLog ≤ channelEvents 1 (cycleBody ts v1 v2).blinkLog ∧
    channelEvents 2 ts.blinkLog ≤ channelEvents 2 (cycleBody ts v1 v2).blinkLog ∧
    (∀ st : DetectorState,
      (logBlink st 0).blinkCount.1 = st.blinkCount.1 + 1 ∧
      (logBlink st 0).blinkCount.2 = st.blinkCount.2 ∧
      (logBlink st 1).blinkCount.2 = st.blinkCount.2 + 1 ∧
      (logBlink st 1).blinkCount.1 = st.blinkCount.1) := by
  rw [cycleBody_blinkLog ts v1 v2]
  refine ⟨?_, ?_, ?_, ?_, ?_⟩
  · intro h1
    rw [channelEvents_append, channelEvents_append, h1]
    by_cases hc2 : ((detectStateChange ts.det v1 v2).2.2 &&
        (detectStateChange ts.det v1 v2).1.isOn.2 && !ts.det.wasOn.2) = true <;>
      cases hOn : (detectStateChange ts.det v1 v2).1.isOn.1 <;>
        cases hWas : ts.det.wasOn.1 <;>
          simp [hc2, channelEvents]
  · intro h2
    rw [channelEvents_append, channelEvents_append, h2]
    by_cases hc1 : ((detectStateChange ts.det v1 v2).2.1 &&
        (detectStateChange ts.det v1 v2).1.isOn.1 && !ts.det.wasOn.1) = true <;>
      cases hOn : (detectStateChange ts.det v1 v2).1.isOn.2 <;>
        cases hWas : ts.det.wasOn.2 <;>
          simp [hc1, channelEvents]
  · rw [channelEvents_append, channelEvents_append]
    omega
  · rw [channelEvents_append, channelEvents_append]
    omega
  · intro st
    simp [logBlink]

/-- Witness for C2: after readings (1,1) and (1,1), the reading (2,1)
is an evaluated cycle on channel 1 and logs exactly one event there. -/
def tsW : TestState :=
  { det := { isOn := (false, false), wasOn := (false, false),
             lastValue := (some 1, some 1), threshold := (3/4, 3/4),
             blinkCount := (0, 0) },
    blinkCount := 0, blinkLog := [], camera := initRecorder [] }

theorem event_counter_per_channel_transition_witness :
    (detectStateChange tsW.det 2 1).2.1 = true ∧
    channelEvents 1 (cycleBody tsW 2 1).blinkLog =
      channelEvents 1 tsW.blinkLog +
        (if (detectStateChange tsW.det 2 1).1.isOn.1 = true ∧ tsW.det.wasOn.1 = false
         then 1 else 0) :=
  ⟨by decide, (event_counter_per_channel_transition tsW 2 1).1 (by decide)⟩

/-! ### C3: cleanup dequeues aged must-keep segments instead of
stopping at them -/

/-- **C3 counterexample.** With segment "A" (enqueued at 0, must-keep)
in front of segment "B" (enqueued at 1000, unmarked), both older than
the 60000 ms retention period at `now = 70000`, the claim predicts that
cleanup stops at "A" and leaves the queue `["A", "B"]` untouched; the
code instead dequeues the must-keep segment "A" (keeping its file),
continues past it, and dequeues and deletes "B". -/
theorem cleanup_mustkeep_dequeued_counterexample :
    performCleanupAux 70000 60000 ["A"] [⟨"A", 0⟩, ⟨"B", 1000⟩] ["A", "B"] =
      ([], ["A"]) := by
  decide

/-- Effect of dequeuing the segments `pre` on the directory: each
non-must-keep segment's file is deleted, must-keep files are left. -/
def deleteSegments (mustKeep : List String) (pre : List Segment)
    (files : List String) : List String :=
  pre.foldl
    (fun fs s => if s.path ∈ mustKeep then fs else fs.filter (fun f => f ≠ s.path))
    files

/-- **C3 amended.** Cleanup evaluates the queue strictly from the front:
it dequeues every leading segment whose age since enqueue exceeds the
retention period — removing must-keep segments from the queue as well,
though their files are never deleted (left for the final sweep) — and
deletes the files of the dequeued non-must-keep segments; it stops at
the first segment from the front that is too young, which stays queued
together with everything behind it. -/
theorem cleanup_front_to_back_amended
    (now ret : ℤ) (mk : List String) (pre post : List Segment) (files : List String)
    (hpre : ∀ s ∈ pre, now - s.timestamp > ret)
    (hpost : ∀ s ∈ post.take 1, ¬ now - s.timestamp > ret) :
    performCleanupAux now ret mk (pre ++ post) files =
      (post, deleteSegments mk pre files) ∧
    (∀ f ∈ files, f ∈ mk → f ∈ deleteSegments mk pre files) := by
  constructor
  · induction pre generalizing files with
    | nil =>
      cases post with
      | nil => rfl
      | cons s rest =>
        have hs : ¬ now - s.timestamp > ret := hpost s (by simp)
        simp [performCleanupAux, deleteSegments, hs]
    | cons s pre ih =>
      have hs : now - s.timestamp > ret := hpre s (by simp)
      have ih' := ih
        (if s.path ∈ mk then files else files.filter (fun f => f ≠ s.path))
        (fun x hx => hpre x (by simp [hx]))
      simpa [performCleanupAux, deleteSegments, hs] using ih'
  · induction pre generalizing files with
    | nil => intro f hf _; simpa [deleteSegments] using hf
    | cons s pre ih =>
      intro f hf hfmk
      have hpre' : ∀ x ∈ pre, now - x.timestamp > ret :=
        fun x hx => hpre x (by simp [hx])
      by_cases hmem : s.path ∈ mk
      · have := ih files hpre' f hf hfmk
        simpa [deleteSegments, hmem] using this
      · have hne : f ≠ s.path := fun h => hmem (h ▸ hfmk)
        have hf' : f ∈ files.filter (fun g => g ≠ s.path) :=
          List.mem_filter.mpr ⟨hf, by simp [hne]⟩
        have := ih (files.filter (fun g => g ≠ s.path)) hpre' f hf' hfmk
        simpa [deleteSegments, hmem] using this

theorem performCleanupAux_queue_mem
    (now ret : ℤ) (mk : List String) (q : List Segment) (fs : List String) :
    ∀ s ∈ (performCleanupAux now ret mk q fs).1, s ∈ q := by
  induction q generalizing fs with
  | nil => simp [performCleanupAux]
  | cons a q ih =>
    intro s hs
    by_cases ha : now - a.timestamp > ret
    · simp only [performCleanupAux, if_pos ha] at hs
      exact List.mem_cons_of_mem a (ih _ s hs)
    · simp only [performCleanupAux, if_neg ha] at hs
      exact hs

theorem performCleanupAux_files_mem
    (now ret : ℤ) (mk : List String) (q : List Segment) (fs : List String)
    (x : String) (hx : x ∈ fs) (hq : ∀ s ∈ q, x ≠ s.path) :
    x ∈ (performCleanupAux now ret mk q fs).2 := by
  induction q generalizing fs with
  | nil => simpa [performCleanupAux] using hx
  | cons a q ih =>
    by_cases ha : now - a.timestamp > ret
    · simp only [performCleanupAux, if_pos ha]
      refine ih ?_ ?_ (fun s hs => hq s (List.mem_cons_of_mem a hs))
      by_cases hmem : a.path ∈ mk
      · simpa [hmem] using hx
      · have : x ≠ a.path := hq a (List.mem_cons_self a q)
        simp only [if_neg hmem]
        exact List.mem_filter.mpr ⟨hx, by simp [this]⟩
    · simpa [performCleanupAux, if_neg ha] using hx

theorem performCleanupAux_mustkeep_files
    (now ret : ℤ) (mk : List String) (q : List Segment) (fs : List String)
    (x : String) (hx : x ∈ fs) (hmk : x ∈ mk) :
    x ∈ (performCleanupAux now ret mk q fs).2 := by
  induction q generalizing fs with
  | nil => simpa [performCleanupAux] using hx
  | cons a q ih =>
    by_cases ha : now - a.timestamp > ret
    · simp only [performCleanupAux, if_pos ha]
      refine ih _ ?_
      by_cases hmem : a.path ∈ mk
      · simpa [hmem] using hx
      · have hne : x ≠ a.path := fun h => hmem (h ▸ hmk)
        simp only [if_neg hmem]
        exact List.mem_filter.mpr ⟨hx, by simp [hne]⟩
    · simpa [performCleanupAux, if_neg ha] using hx

theorem performCleanupAux_files_subset
    (now ret : ℤ) (mk : List String) (q : List Segment) (fs : List String) :
    ∀ x ∈ (performCleanupAux now ret mk q fs).2, x ∈ fs := by
  induction q generalizing fs with
  | nil => simp [performCleanupAux]
  | cons a q ih =>
    intro x hx
    by_cases ha : now - a.timestamp > ret
    · simp only [performCleanupAux, if_pos ha] at hx
      have := ih _ x hx
      by_cases hmem : a.path ∈ mk
      · simpa [hmem] using this
      · simp only [if_neg hmem] at this
        exact (List.mem_filter.mp this).1
    · simpa [performCleanupAux, if_neg ha] using hx

theorem performCleanupAux_empties
    (now ret : ℤ) (mk : List String) (q : List Segment) (fs : List String)
    (h : ∀ s ∈ q, now - s.timestamp > ret) :
    (performCleanupAux now ret mk q fs).1 = [] := by
  induction q generalizing fs with
  | nil => rfl
  | cons a q ih =>
    have ha : now - a.timestamp > ret := h a (List.mem_cons_self a q)
    simp only [performCleanupAux, if_pos ha]
    exact ih _ (fun s hs => h s (List.mem_cons_of_mem a hs))

theorem performCleanup_fields (now : ℤ) (st : RecorderState) :
    (performCleanup now st).segmentsWithBlinks = st.segmentsWithBlinks ∧
    (performCleanup now st).segmentDuration = st.segmentDuration ∧
    (performCleanup now st).retentionWindow = st.retentionWindow ∧
    (performCleanup now st).currentSegment = st.currentSegment :=
  ⟨rfl, rfl, rfl, rfl⟩

theorem drainAux_segmentsWithBlinks (t : ℕ → ℤ) (n : ℕ) :
    ∀ (k : ℕ) (st : RecorderState),
      (drainAux t k n st).segmentsWithBlinks = st.segmentsWithBlinks := by
  induction n with
  | zero => intro k st; rfl
  | succ n ih =>
    intro k st
    by_cases hq : st.videoQueue = [] <;>
      simp [drainAux, hq, ih, (performCleanup_fields (t k) st).1]

theorem drainAux_files_mem (t : ℕ → ℤ) (n : ℕ) :
    ∀ (k : ℕ) (st : RecorderState) (x : String), x ∈ st.files →
      (∀ s ∈ st.videoQueue, x ≠ s.path) → x ∈ (drainAux t k n st).files := by
  induction n with
  | zero => intro k st x hx _; exact hx
  | succ n ih =>
    intro k st x hx hq
    by_cases hemp : st.videoQueue = []
    · simpa [drainAux, hemp] using hx
    · simp only [drainAux, if_neg hemp]
      refine ih (k + 1) _ x ?_ ?_
      · exact performCleanupAux_files_mem _ _ _ _ _ x hx hq
      · intro s hs
        exact hq s (performCleanupAux_queue_mem _ _ _ _ _ s hs)

theorem drainAux_files_subset (t : ℕ → ℤ) (n : ℕ) :
    ∀ (k : ℕ) (st : RecorderState) (x : String),
      x ∈ (drainAux t k n st).files → x ∈ st.files := by
  induction n with
  | zero => intro k st x hx; exact hx
  | succ n ih =>
    intro k st x hx
    by_cases hemp : st.videoQueue = []
    · simpa [drainAux, hemp] using hx
    · simp only [drainAux, if_neg hemp] at hx
      exact performCleanupAux_files_subset _ _ _ _ _ x (ih (k + 1) _ x hx)

/-- An upper bound on the enqueue times in a queue. -/
def queueMaxTS (q : List Segment) : ℤ :=
  (q.map Segment.timestamp).foldr max 0

theorem le_queueMaxTS (q : List Segment) : ∀ s ∈ q, s.timestamp ≤ queueMaxTS q := by
  induction q with
  | nil => simp
  | cons a q ih =>
    intro s hs
    rcases List.mem_cons.mp hs with h | h
    · simp [queueMaxTS, h, le_max_left]
    · exact le_trans (ih s h) (by simp [queueMaxTS, le_max_right])

theorem drainAux_empties_of_late (t : ℕ → ℤ) (B : ℤ) (m : ℕ) :
    ∀ (k : ℕ) (st : RecorderState),
      (∀ s ∈ st.videoQueue, s.timestamp ≤ B) →
      t (k + m) > B + st.segmentDuration * 1000 * st.retentionWindow →
      (drainAux t k (m + 1) st).videoQueue = [] := by
  induction m with
  | zero =>
    intro k st hB ht
    by_cases hemp : st.videoQueue = []
    · simp [drainAux, hemp]
    · simp only [drainAux, if_neg hemp]
      apply performCleanupAux_empties
      intro s hs
      have h1 := hB s hs
      have h2 : t k > B + st.segmentDuration * 1000 * st.retentionWindow := by
        simpa using ht
      linarith
  | succ m ih =>
    intro k st hB ht
    by_cases hemp : st.videoQueue = []
    · simp [drainAux, hemp]
    · simp only [drainAux, if_neg hemp]
      refine ih (k + 1) (performCleanup (t k) st) ?_ ?_
      · intro s hs
        exact hB s (performCleanupAux_queue_mem _ _ _ _ _ s hs)
      · have harith : k + 1 + m = k + (m + 1) := by omega
        rw [(performCleanup_fields (t k) st).2.1, (performCleanup_fields (t k) st).2.2.1,
          harith]
        exact ht

theorem drainAux_of_empty (t : ℕ → ℤ) (n : ℕ) :
    ∀ (k : ℕ) (st : RecorderState), st.videoQueue = [] → drainAux t k n st = st := by
  induction n with
  | zero => intro k st _; rfl
  | succ n _ => intro k st h; simp [drainAux, h]

theorem drainAux_extend (t : ℕ → ℤ) (n : ℕ) :
    ∀ (k m : ℕ) (st : RecorderState), n ≤ m →
      (drainAux t k n st).videoQueue = [] → (drainAux t k m st).videoQueue = [] := by
  induction n with
  | zero =>
    intro k m st _ h
    have hst : st.videoQueue = [] := h
    rw [drainAux_of_empty t m k st hst]
    exact hst
  | succ n ih =>
    intro k m st hm h
    by_cases hemp : st.videoQueue = []
    · rw [drainAux_of_empty t m k st hemp]; exact hemp
    · obtain ⟨m', rfl⟩ : ∃ m', m = m' + 1 := ⟨m - 1, by omega⟩
      simp only [drainAux, if_neg hemp] at h ⊢
      exact ih (k + 1) m' _ (by omega) h

theorem drainAux_terminates (t : ℕ → ℤ) (st : RecorderState)
    (hub : ∀ b : ℤ, ∃ k : ℕ, b < t k) :
    ∃ n, ∀ m, n ≤ m → (drainAux t 0 m st).videoQueue = [] := by
  obtain ⟨k, hk⟩ := hub
    (queueMaxTS st.videoQueue + st.segmentDuration * 1000 * st.retentionWindow)
  refine ⟨k + 1, fun m hm => ?_⟩
  refine drainAux_extend t (k + 1) 0 m st hm ?_
  exact drainAux_empties_of_late t (queueMaxTS st.videoQueue) k 0 st
    (le_queueMaxTS st.videoQueue) (by simpa using hk)

theorem cleanup_front_to_back_amended_witness :
    (∀ s ∈ [(⟨"A", 0⟩ : Segment), ⟨"B", 1000⟩], (70000 : ℤ) - s.timestamp > 60000) ∧
    performCleanupAux 70000 60000 ["A"] ([⟨"A", 0⟩, ⟨"B", 1000⟩] ++ [⟨"C", 69000⟩])
        ["A", "B", "C"] =
      ([⟨"C", 69000⟩], deleteSegments ["A"] [⟨"A", 0⟩, ⟨"B", 1000⟩] ["A", "B", "C"]) :=
  ⟨by decide,
   (cleanup_front_to_back_amended 70000 60000 ["A"] [⟨"A", 0⟩, ⟨"B", 1000⟩]
     [⟨"C", 69000⟩] ["A", "B", "C"] (by decide) (by decide)).1⟩

/-! ### C4: must-keep segments survive stop() renamed, unmarked ones
are deleted -/

/-- **C4.** Any `.mp4` file marked must-keep that is present when
`stopRecording` runs is still present afterwards under its `blink_`
kept-marker name (cleanup never deletes must-keep files, the sweep
renames them, and the drain only deletes queued segment paths); and any
`.mp4` file never marked must-keep — in particular one aged past the
retention period — is absent after the final sweep.  The two collision
side conditions hold in every real run, where files and queue entries
are plain `segment_*.mp4` names. -/
theorem mustkeep_kept_unmarked_deleted :
    (∀ (st : RecorderState) (t : ℕ → ℤ) (n : ℕ) (f : String),
      f ∈ st.files → f ∈ st.segmentsWithBlinks → strEndsWith f ".mp4" = true →
      (∀ s ∈ st.videoQueue, "blink_" ++ f ≠ s.path) →
      ("blink_" ++ f) ∈ (stopRecording t n st).files) ∧
    (∀ (st : RecorderState) (t : ℕ → ℤ) (n : ℕ) (g : String),
      g ∈ st.files → g ∉ st.segmentsWithBlinks → strEndsWith g ".mp4" = true →
      (∀ f' ∈ st.files, g ≠ "blink_" ++ f') →
      g ∉ (stopRecording t n st).files) ∧
    (∀ (now : ℤ) (st : RecorderState) (f : String),
      f ∈ st.files → f ∈ st.segmentsWithBlinks → f ∈ (performCleanup now st).files) := by
  refine ⟨?_, ?_, fun now st f hf hmk =>
    performCleanupAux_mustkeep_files _ _ _ _ _ f hf hmk⟩
  · intro st t n f hf hmk hmp4 hnq
    have hswept : ("blink_" ++ f) ∈ processVideos st.segmentsWithBlinks st.files := by
      refine List.mem_filterMap.mpr ⟨f, hf, ?_⟩
      rw [if_neg (by simp [hmp4]), if_pos (List.any_eq_true.mpr ⟨f, hmk, by simp⟩)]
    exact drainAux_files_mem t n 0 _ _ hswept hnq
  · intro st t n g hg hmk hmp4 hcol hmem
    have hswept : g ∈ processVideos st.segmentsWithBlinks st.files :=
      drainAux_files_subset t n 0 _ g hmem
    obtain ⟨a, ha, heq⟩ := List.mem_filterMap.mp hswept
    by_cases hend : strEndsWith a ".mp4" = true
    · rw [if_neg (by simp [hend])] at heq
      by_cases hany : st.segmentsWithBlinks.any (fun s => s = a) = true
      · rw [if_pos hany] at heq
        exact hcol a ha (Option.some_injective _ heq).symm
      · rw [if_neg hany] at heq
        exact Option.noConfusion heq
    · rw [if_pos (by simp [hend])] at heq
      obtain rfl : a = g := Option.some_injective _ heq
      exact hend hmp4

/-- Witness state for the recorder theorems: "a.mp4" marked must-keep,
"b.mp4" unmarked, one young queued segment. -/
def recW : RecorderState :=
  { segmentsWithBlinks := ["a.mp4"], currentSegment := none,
    videoQueue := [⟨"b.mp4", 5000⟩], files := ["a.mp4", "b.mp4"],
    segmentDuration := 30, retentionWindow := 2 }

theorem mustkeep_kept_unmarked_deleted_witness :
    ("a.mp4" ∈ recW.files ∧ "a.mp4" ∈ recW.segmentsWithBlinks ∧
      ("blink_a.mp4" ∈ (stopRecording (fun k => (k : ℤ)) 3 recW).files)) ∧
    ("b.mp4" ∈ recW.files ∧ "b.mp4" ∉ recW.segmentsWithBlinks ∧
      "b.mp4" ∉ (stopRecording (fun k => (k : ℤ)) 3 recW).files) ∧
    "a.mp4" ∈ (performCleanup 70000 recW).files :=
  ⟨⟨by decide, by decide,
    (mustkeep_kept_unmarked_deleted).1 recW (fun k => (k : ℤ)) 3 "a.mp4"
      (by decide) (by decide) (by decide) (by decide)⟩,
   ⟨by decide, by decide,
    (mustkeep_kept_unmarked_deleted).2.1 recW (fun k => (k : ℤ)) 3 "b.mp4"
      (by decide) (by decide) (by decide) (by decide)⟩,
   (mustkeep_kept_unmarked_deleted).2.2 70000 recW "a.mp4" (by decide) (by decide)⟩

/-! ### C7: stop() empties the queue but does not clear the must-keep
markings -/

/-- State exhibiting that stop() keeps the must-keep markings. -/
def stC7 : RecorderState :=
  { segmentsWithBlinks := ["a.mp4"], currentSegment := none, videoQueue := [],
    files := ["a.mp4"], segmentDuration := 30, retentionWindow := 2 }

/-- **C7 counterexample.** After `stopRecording` completes on a state
whose must-keep set holds "a.mp4", the must-keep set still holds
"a.mp4": `stopRecording` never clears `segmentsWithBlinks`, so the
claim that both the must-keep set and the queue are cleared fails. -/
theorem stop_keeps_mustkeep_counterexample :
    (stopRecording (fun k => (k : ℤ)) 1 stC7).segmentsWithBlinks = ["a.mp4"] ∧
    (["a.mp4"] : List String) ≠ [] := by
  decide

/-- **C7 amended.** After `stopRecording` the retention queue is
drained empty, but the must-keep markings are left untouched on the
instance; a subsequent run starts without them only because a fresh
controller is constructed, whose constructor state has an empty
must-keep set and an empty queue. -/
theorem stop_clears_queue_keeps_markings :
    (∀ (st : RecorderState) (t : ℕ → ℤ), (∀ b : ℤ, ∃ k : ℕ, b < t k) →
      ∃ n, (stopRecording t n st).videoQueue = []) ∧
    (∀ (st : RecorderState) (t : ℕ → ℤ) (n : ℕ),
      (stopRecording t n st).segmentsWithBlinks = st.segmentsWithBlinks) ∧
    (∀ files, (initRecorder files).segmentsWithBlinks = [] ∧
      (initRecorder files).videoQueue = []) := by
  refine ⟨fun st t hub => ?_, fun st t n => ?_, fun files => ⟨rfl, rfl⟩⟩
  · obtain ⟨n, hn⟩ := drainAux_terminates t
      { st with files := processVideos st.segmentsWithBlinks st.files } hub
    exact ⟨n, hn n le_rfl⟩
  · exact drainAux_segmentsWithBlinks t n 0 _

theorem stop_clears_queue_keeps_markings_witness :
    ∃ n, (stopRecording (fun k => (k : ℤ)) n recW).videoQueue = [] :=
  stop_clears_queue_keeps_markings.1 recW (fun k => (k : ℤ))
    (fun b => ⟨(b + 1).toNat, lt_of_lt_of_le (lt_add_one b) (Int.self_le_toNat (b + 1))⟩)

/-! ### C8: the drain phase of stop() terminates -/

/-- **C8.** `stopRecording` always returns: whatever the retention
queue holds at shutdown (segments younger than the retention period
included), the front-to-back drain loop empties the queue after finitely
many iterations — some iteration count `n` suffices and every larger
count leaves the queue empty — because each iteration re-reads the
clock, which grows without bound. -/
theorem stop_drain_terminates (st : RecorderState) (t : ℕ → ℤ)
    (hub : ∀ b : ℤ, ∃ k : ℕ, b < t k) :
    ∃ n, ∀ m, n ≤ m → (stopRecording t m st).videoQueue = [] :=
  drainAux_terminates t
    { st with files := processVideos st.segmentsWithBlinks st.files } hub

/-- Witness state with a segment still younger than the 60000 ms
retention period at shutdown time 0. -/
def stC8 : RecorderState :=
  { segmentsWithBlinks := [], currentSegment := none,
    videoQueue := [⟨"young.mp4", 0⟩, ⟨"younger.mp4", 10000⟩],
    files := ["young.mp4", "younger.mp4"], segmentDuration := 30,
    retentionWindow := 2 }

theorem stop_drain_terminates_witness :
    ∃ n, ∀ m, n ≤ m → (stopRecording (fun k => (k : ℤ)) m stC8).videoQueue = [] :=
  stop_drain_terminates stC8 (fun k => (k : ℤ))
    (fun b => ⟨(b + 1).toNat, lt_of_lt_of_le (lt_add_one b) (Int.self_le_toNat (b + 1))⟩)

/-! ### C5: ReadSensor format/timeout errors; non-matching lines do
decide an outstanding read -/

/-- **C5 counterexample.** A complete inbound line that does not match
the sensor pattern is not ignored by an outstanding `ReadSensor`: it is
delivered as a `'response'` event and rejects the read with the
invalid-format error (rather than leaving the read pending for a real
sensor response or the timeout). -/
theorem nonsensor_line_decides_read_counterexample :
    sensorLineMatches "OK" = false ∧
    readSensorOutcome (some (0, ReadEvent.response "OK")) = ReadOutcome.invalidFormat := by
  constructor <;> rfl

/-- **C5 amended.** `ReadSensor` resolves with the reading iff the
response line matches the strict two-decimal-number pattern and fails
with the invalid-format error otherwise; with no event before the
5000 ms ceiling it fails with the timeout error.  A non-matching line is
excluded from the sensor `'data'` stream (`processResponse` emits no
`'data'` event for it) — but, being emitted as a `'response'` event, it
does decide an outstanding read, failing it with the invalid-format
error. -/
theorem readSensor_format_timeout_amended :
    (∀ (l : String) (tm : ℕ), tm < readTimeoutMs →
      readSensorOutcome (some (tm, ReadEvent.response l)) =
        (if sensorLineMatches l then ReadOutcome.ok l else ReadOutcome.invalidFormat)) ∧
    readSensorOutcome none = ReadOutcome.readTimeout ∧
    (∀ (tm : ℕ) (e : ReadEvent), readTimeoutMs ≤ tm →
      readSensorOutcome (some (tm, e)) = ReadOutcome.readTimeout) ∧
    (∀ (st : LinkState) (l : String), sensorLineMatches l = false →
      ∀ em ∈ (processResponse st l).2, em.isData = false) := by
  refine ⟨fun l tm htm => ?_, rfl, fun tm e htm => ?_, fun st l hl em hem => ?_⟩
  · simp [readSensorOutcome, Nat.not_le.mpr htm]
  · simp [readSensorOutcome, htm]
  · by_cases he : l = ""
    · simp [processResponse, he] at hem
    · simp only [processResponse, if_neg he, hl, Bool.false_eq_true, if_false,
        List.mem_singleton] at hem
      simp [hem, LinkEmit.isData]

theorem readSensor_format_timeout_amended_witness :
    ((0 : ℕ) < readTimeoutMs ∧
      readSensorOutcome (some (0, ReadEvent.response "1.0,2.0")) =
        (if sensorLineMatches "1.0,2.0" then ReadOutcome.ok "1.0,2.0"
         else ReadOutcome.invalidFormat)) ∧
    (readTimeoutMs ≤ 5000 ∧
      readSensorOutcome (some (5000, ReadEvent.response "1.0,2.0")) =
        ReadOutcome.readTimeout) :=
  ⟨⟨by decide, readSensor_format_timeout_amended.1 "1.0,2.0" 0 (by decide)⟩,
   ⟨by decide, readSensor_format_timeout_amended.2.2.1 5000
     (ReadEvent.response "1.0,2.0") (by decide)⟩⟩

/-! ### C6: bounded busy wait with forced clear, plus watchdog -/

theorem busyWaitAux_sleeps_le (busy : ℕ → Bool) (f : ℕ) :
    ∀ k, (busyWaitAux busy k f).1 ≤ k + f + 1 := by
  induction f with
  | zero =>
    intro k
    by_cases h : busy k = true <;> simp [busyWaitAux, h]
  | succ f ih =>
    intro k
    by_cases h : busy k = true
    · simp only [busyWaitAux, h, if_true]
      have := ih (k + 1)
      omega
    · have h' : busy k = false := by simpa using h
      simp only [busyWaitAux, h', Bool.false_eq_true, if_false]
      omega

theorem busyWaitAux_forced (busy : ℕ → Bool) (f : ℕ) :
    ∀ k, k + f = 99 → (∀ j, j ≤ 99 → busy j = true) →
      busyWaitAux busy k f = (100, true) := by
  induction f with
  | zero =>
    intro k hk hb
    have : busy k = true := hb k (by omega)
    simp [busyWaitAux, this]
    omega
  | succ f ih =>
    intro k hk hb
    have : busy k = true := hb k (by omega)
    simp only [busyWaitAux, this, if_true]
    exact ih (k + 1) (by omega) hb

/-- **C6.** `sendCommand` never blocks indefinitely on a busy link: the
busy-wait loop sleeps in fixed 10 ms increments and performs at most
100 of them (at most `MAX_BUSY_WAIT = 1000` ms of waiting); when the
flag stays busy through every check the loop forcibly clears it after
the 100th sleep and the command proceeds; and the watchdog scheduled
100 ms after a successful write leaves the flag cleared whenever it
fires with no response having arrived (flag still busy). -/
theorem sendCommand_busy_wait_bounded :
    (∀ busy : ℕ → Bool, (busyWait busy).1 * 10 ≤ MAX_BUSY_WAIT) ∧
    (∀ busy : ℕ → Bool, (∀ k, k < 100 → busy k = true) →
      busyWait busy = (100, true)) ∧
    (∀ b, watchdogFire b = false) := by
  refine ⟨fun busy => ?_, fun busy hb => ?_, fun b => ?_⟩
  · have := busyWaitAux_sleeps_le busy 99 0
    simp only [busyWait, MAX_BUSY_WAIT]
    omega
  · exact busyWaitAux_forced busy 99 0 rfl (fun j hj => hb j (by omega))
  · cases b <;> rfl

theorem sendCommand_busy_wait_bounded_witness :
    (∀ k, k < 100 → (fun _ => true) k = true) ∧
    busyWait (fun _ => true) = (100, true) :=
  ⟨fun _ _ => rfl, sendCommand_busy_wait_bounded.2.1 (fun _ => true) (fun _ _ => rfl)⟩

/-! ### C9: open failure after a successful selection always retries -/

/-- Environment in which enumeration always lists COM3, the operator
always confirms COM3, and opening the port always fails. -/
def envFail : InitEnv :=
  ⟨fun _ => ["COM3"], fun _ => "COM3", fun _ => true⟩

/-- **C9 counterexample.** With the open failing on every attempt, the
claim predicts the second consecutive failure is surfaced to the caller;
instead, after three full attempts the recursion is still retrying (no
failure was surfaced), because each successful selection re-caches the
chosen path, making the catch condition `savedPortPath ===
this.portPath` hold again. -/
theorem open_retry_unbounded_counterexample :
    (initLink envFail 0 3 ⟨none, none⟩).isFailure = false ∧
    initLink envFail 0 3 ⟨none, none⟩ = .exhausted ⟨none, some "COM3"⟩ := by
  constructor <;> rfl

/-- **C9 amended.** When `open` fails after a successful port selection,
the cached path always equals the attempted path (selection caches its
result), so the cache is cleared and selection/open is retried
automatically — and this repeats without bound as long as selection
keeps succeeding and open keeps failing, never surfacing the error; an
error is surfaced (without retry) exactly when it strikes while the
cached path differs from `this.portPath`, e.g. an empty enumeration on
an instance whose `portPath` was already set. -/
theorem open_failure_retry_amended :
    (∀ env : InitEnv, (∀ j, env.avail j ≠ []) → (∀ j, env.openFails j = true) →
      ∀ fuel k st, (initLink env k fuel st).isExhausted = true) ∧
    (∀ (env : InitEnv) (k fuel : ℕ) (st : PortState) (p : String),
      selectPort st.savedPortPath (env.avail k) (env.choice k) = .ok p (some p) →
      env.openFails k = true →
      initLink env k (fuel + 1) st = initLink env (k + 1) fuel ⟨none, some p⟩) ∧
    (∀ (env : InitEnv) (k fuel : ℕ) (st : PortState),
      env.avail k = [] → st.portPath ≠ none →
      initLink env k (fuel + 1) st = .failure ⟨none, st.portPath⟩) := by
  refine ⟨fun env hav hop => ?_, fun env k fuel st p hsel hop => ?_,
    fun env k fuel st hav hport => ?_⟩
  · intro fuel
    induction fuel with
    | zero => intro k st; rfl
    | succ fuel ih =>
      intro k st
      have hsel : ∃ p, selectPort st.savedPortPath (env.avail k) (env.choice k) =
          .ok p (some p) := by
        have hne : env.avail k ≠ [] := hav k
        cases hsv : st.savedPortPath with
        | none =>
          exact ⟨env.choice k, by simp [selectPort, List.isEmpty_iff, hne]⟩
        | some p0 =>
          by_cases hmem : p0 ∈ env.avail k
          · exact ⟨p0, by simp [selectPort, hmem]⟩
          · exact ⟨env.choice k,
              by simp [selectPort, hmem, List.isEmpty_iff, hne]⟩
      obtain ⟨p, hp⟩ := hsel
      simp only [initLink, hp, hop k, if_true]
      exact ih (k + 1) ⟨none, some p⟩
  · simp [initLink, hsel, hop]
  · have hsel : selectPort st.savedPortPath (env.avail k) (env.choice k) =
        .noPorts none := by
      cases hsv : st.savedPortPath with
      | none => simp [selectPort, hav]
      | some p0 => simp [selectPort, hav]
    have hne : (none : Option String) ≠ st.portPath := fun h => hport h.symm
    simp [initLink, hsel, hne]

theorem open_failure_retry_amended_witness :
    (envFail.avail 0 ≠ [] ∧ envFail.openFails 0 = true) ∧
    (initLink envFail 0 4 ⟨none, none⟩).isExhausted = true :=
  ⟨⟨by decide, rfl⟩,
   open_failure_retry_amended.1 envFail (fun j => List.cons_ne_nil "COM3" [])
     (fun _ => rfl) 4 0 ⟨none, none⟩⟩

/-! ### C10: lines that are blank after trimming do not clear the busy
flag -/

/-- **C10 counterexample.** The complete inbound line `"   "` is
nonempty, yet after processing it the link is still busy: the data
listener trims the line to the empty string and `processResponse`
returns before clearing `isBusy`. -/
theorem whitespace_line_keeps_busy_counterexample :
    ("   " : String) ≠ "" ∧ (handleLine ⟨true, ""⟩ "   ").1.isBusy = true := by
  constructor
  · decide
  · rfl

/-- **C10 amended.** Every complete inbound line that is nonempty after
trimming — whether or not it matches the sensor pattern — clears the
link's busy flag as a postcondition of response processing. -/
theorem nonblank_line_clears_busy_amended (st : LinkState) (message : String)
    (h : jsTrim message ≠ "") :
    (handleLine st message).1.isBusy = false := by
  simp only [handleLine, processResponse, if_neg h]
  by_cases hm : sensorLineMatches (jsTrim message) = true <;> simp [hm]

theorem nonblank_line_clears_busy_amended_witness :
    jsTrim "OK" ≠ "" ∧ (handleLine ⟨true, ""⟩ "OK").1.isBusy = false :=
  ⟨by decide, nonblank_line_clears_busy_amended ⟨true, ""⟩ "OK" (by decide)⟩

end Blink
